import Mathlib

/-!
Verification of the grasp filtering pipeline (`grasp_filter.cpp`) of
`moveit_grasps`.

The development shallowly embeds the five functions of `GraspFilter`:
`chooseBestGrasp`, `filterGrasps`, `filterGraspsHelper`,
`filterGraspThread`, `filterGraspsInCollision` and
`filterGraspsInCollisionHelper`.

Modelling conventions:
* `double` values that are only stored and passed through (IK joint
  configurations, grasp quality) are modelled as `ℚ`; `double` values fed
  to `asin` and compared (the orientation proxy in `chooseBestGrasp`) are
  modelled as `ℝ` with `Real.arcsin`.
* External services (the kinematics solver `searchPositionIK`, the frame
  transform, `Grasps::getPreGraspPose`, link resolution, the collision
  test `isStateColliding` on the cloned planning scene) are opaque
  collaborators and enter the model as function-valued fields of an
  environment structure.
* The worker threads of the IK stage append to the shared result vector
  under a mutex; the model linearises the appends in thread-index order.
  Claims proved here do not depend on the interleaving.
* MoveIt error codes are integers; only `SUCCESS`, `NO_IK_SOLUTION` and
  `TIMED_OUT` are compared against in the source.
* The diagnostic verbose re-runs only produce console/RViz output in the
  source; to make them observable the embedding returns a log of the
  pruning runs performed (input list, verbose flag, retained list).
-/

namespace MoveitGrasps

/-- `moveit_msgs::MoveItErrorCodes::SUCCESS`. -/
def SUCCESS : Int := 1

/-- `moveit_msgs::MoveItErrorCodes::NO_IK_SOLUTION`. -/
def NO_IK_SOLUTION : Int := -31

/-- `moveit_msgs::MoveItErrorCodes::TIMED_OUT`. -/
def TIMED_OUT : Int := -6

/-- A grasp message (`moveit_msgs::Grasp`), reduced to the fields the
filter reads: the grasp pose (parametric type `P`) and the
`grasp_quality` score. -/
structure GraspMsg (P : Type) where
  graspPose : P
  graspQuality : ℚ
deriving DecidableEq

/-- `GraspSolution`: a grasp message plus the IK joint configuration for
the grasp pose and, when requested, for the pre-grasp pose. -/
structure GraspSolution (P : Type) where
  grasp : GraspMsg P
  graspIkSolution : List ℚ
  pregraspIkSolution : List ℚ
deriving DecidableEq

/-- The external collaborators and robot-model facts consumed by the
IK filtering stage (`filterGrasps` / `filterGraspsHelper` /
`filterGraspThread`). -/
structure StageAEnv (P : Type) where
  /-- `boost::thread::hardware_concurrency()`. -/
  hardwareConcurrency : Nat
  /-- `arm_jmg->getVariableCount()`: degrees of freedom, the length of
  the zero-initialised IK seed. -/
  numVariables : Nat
  /-- `arm_jmg->getAttachedEndEffectorNames().size()`. -/
  eeCount : Nat
  /-- Whether `arm_jmg->getSolverInstance()` yields a non-null solver. -/
  solverAvailable : Bool
  /-- Whether the solver base frame equals the robot model frame
  (`moveit::core::Transforms::sameFrame`). -/
  sameFrame : Bool
  /-- Whether `robot_state_->getLinkModel(ik_frame)` resolves when the
  frames differ. -/
  linkFound : Bool
  /-- The transform bringing a pose into the IK solver frame
  (`link_transform * eigen_pose`). -/
  linkTransform : P → P
  /-- `Grasps::getPreGraspPose(grasp, ee_parent_link)`. -/
  preGraspPose : GraspMsg P → P
  /-- `kin_solver->searchPositionIK(pose, seed, timeout, solution,
  error_code)`: returns the error code and the solution vector. -/
  solve : P → List ℚ → Int × List ℚ

/-! ## `GraspFilter::filterGraspThread` (grasp_filter.cpp:264-386) -/

/-- One worker thread of the IK stage.  Starting from the seed state
(zero-initialised by the caller), for each assigned grasp: solve IK for
the transformed grasp pose; on `SUCCESS` copy the solution into the seed
(warm start), then when `filter_pregrasp_` is set additionally solve IK
for the transformed pre-grasp pose, and only on a second `SUCCESS` push
a `GraspSolution` onto the shared result vector; every non-`SUCCESS`
outcome skips the candidate and continues. -/
def filterGraspThread {P : Type} (env : StageAEnv P) (filterPregrasp : Bool) :
    List ℚ → List (GraspMsg P) → List (GraspSolution P)
  | _, [] => []
  | seed, g :: rest =>
    let r := env.solve (env.linkTransform g.graspPose) seed
    if r.1 = SUCCESS then
      -- copy solution to seed state so that next solution is faster
      if filterPregrasp then
        let r2 := env.solve (env.linkTransform (env.preGraspPose g)) r.2
        if r2.1 = SUCCESS then
          ⟨g, r.2, r2.2⟩ :: filterGraspThread env filterPregrasp r.2 rest
        else
          -- NO_IK_SOLUTION, TIMED_OUT or any other error: continue
          filterGraspThread env filterPregrasp r.2 rest
      else
        -- not filtering pre-grasp: the cleared pregrasp solution is kept
        ⟨g, r.2, []⟩ :: filterGraspThread env filterPregrasp r.2 rest
    else
      filterGraspThread env filterPregrasp seed rest

/-- Modelled from the spec: a candidate is accepted exactly when the
grasp-pose IK call returns `SUCCESS` and, when pre-grasp filtering is
enabled, the pre-grasp-pose IK call (seeded with the grasp solution)
also returns `SUCCESS`. -/
def specAccept {P : Type} (env : StageAEnv P) (filterPregrasp : Bool)
    (seed : List ℚ) (g : GraspMsg P) : Prop :=
  (env.solve (env.linkTransform g.graspPose) seed).1 = SUCCESS ∧
    (filterPregrasp = true →
      (env.solve (env.linkTransform (env.preGraspPose g))
        (env.solve (env.linkTransform g.graspPose) seed).2).1 = SUCCESS)

instance {P : Type} (env : StageAEnv P) (fp : Bool) (seed : List ℚ)
    (g : GraspMsg P) : Decidable (specAccept env fp seed g) := by
  unfold specAccept; infer_instance

/-- Modelled from the spec: the warm-start seed after a candidate is the
grasp IK solution when the grasp solve succeeded, else the unchanged
seed. -/
def specSeed {P : Type} (env : StageAEnv P) (seed : List ℚ)
    (g : GraspMsg P) : List ℚ :=
  let r := env.solve (env.linkTransform g.graspPose) seed
  if r.1 = SUCCESS then r.2 else seed

/-- Modelled from the spec: the solution recorded for an accepted
candidate. -/
def specSolution {P : Type} (env : StageAEnv P) (filterPregrasp : Bool)
    (seed : List ℚ) (g : GraspMsg P) : GraspSolution P :=
  let r := env.solve (env.linkTransform g.graspPose) seed
  ⟨g, r.2,
    if filterPregrasp then
      (env.solve (env.linkTransform (env.preGraspPose g)) r.2).2
    else []⟩

/-- Modelled from the spec: the list of solutions a worker contributes is
the per-candidate filter by `specAccept` along the evolving seed. -/
def specAccepted {P : Type} (env : StageAEnv P) (filterPregrasp : Bool) :
    List ℚ → List (GraspMsg P) → List (GraspSolution P)
  | _, [] => []
  | seed, g :: rest =>
    if specAccept env filterPregrasp seed g then
      specSolution env filterPregrasp seed g ::
        specAccepted env filterPregrasp (specSeed env seed g) rest
    else
      specAccepted env filterPregrasp (specSeed env seed g) rest

/-! ## `GraspFilter::filterGraspsHelper` (grasp_filter.cpp:160-262) -/

/-- Worker count: `hardware_concurrency()`, clamped to the candidate
count, forced to `1` in verbose (diagnostic) mode. -/
def numThreadsFor {P : Type} (env : StageAEnv P) (numGrasps : Nat)
    (verbose : Bool) : Nat :=
  let t := if numGrasps < env.hardwareConcurrency then numGrasps
           else env.hardwareConcurrency
  if verbose then 1 else t

/-- `double num_grasps_per_thread = double(possible_grasps.size()) /
num_threads` (exact-rational idealisation of the double division). -/
def graspsPerThread (numGrasps numThreads : Nat) : ℚ :=
  (numGrasps : ℚ) / (numThreads : ℚ)

/-- `grasps_id_end = ceil(num_grasps_per_thread*(i+1))`, clamped to the
candidate count. -/
def partEnd (numGrasps numThreads i : Nat) : Nat :=
  let e := ⌈graspsPerThread numGrasps numThreads * (i + 1)⌉₊
  if numGrasps ≤ e then numGrasps else e

/-- `grasps_id_start = grasps_id_end` of the previous iteration, `0` for
the first worker. -/
def partStart (numGrasps numThreads : Nat) : Nat → Nat
  | 0 => 0
  | i + 1 => partEnd numGrasps numThreads i

/-- Result of one `filterGraspsHelper` run: the returned boolean, the
size of the per-arm solver cache afterwards, how many
`getSolverInstance` calls were made, and the shared result vector. -/
structure HelperResult (P : Type) where
  ok : Bool
  cache : Nat
  solverAttempts : Nat
  sols : List (GraspSolution P)
deriving DecidableEq

/-- One IK-filtering pass.  `cache` is the current size of
`kin_solvers_[arm]`; when it differs from the worker count the cache is
rebuilt, failing if no solver can be instantiated (the first null
instance aborts after one attempt, leaving the single pushed entry).
Then, when the solver frame differs from the model frame and the frame's
link cannot be resolved, the pass fails.  Otherwise the candidates are
split into contiguous ranges by ceiling division and each worker runs
`filterGraspThread` from a zero seed; the workers' appends to the shared
vector are linearised in thread order. -/
def filterGraspsHelper {P : Type} (env : StageAEnv P)
    (possibleGrasps : List (GraspMsg P)) (filterPregrasp : Bool)
    (verbose : Bool) (cache : Nat) (sols : List (GraspSolution P)) :
    HelperResult P :=
  let n := possibleGrasps.length
  let numThreads := numThreadsFor env n verbose
  if cache ≠ numThreads ∧ 0 < numThreads ∧ env.solverAvailable = false then
    ⟨false, 1, 1, sols⟩
  else
    let attempts := if cache ≠ numThreads then numThreads else 0
    if env.sameFrame = false ∧ env.linkFound = false then
      ⟨false, numThreads, attempts, sols⟩
    else
      ⟨true, numThreads, attempts,
        sols ++ (List.range numThreads).flatMap (fun i =>
          filterGraspThread env filterPregrasp
            (List.replicate env.numVariables 0)
            ((possibleGrasps.drop (partStart n numThreads i)).take
              (partEnd n numThreads i - partStart n numThreads i)))⟩

/-! ## `GraspFilter::filterGrasps` (grasp_filter.cpp:105-157) -/

/-- Result of `filterGrasps`: returned boolean, solver cache size,
total `getSolverInstance` calls, and the output solution vector. -/
structure FilterResult (P : Type) where
  ok : Bool
  cache : Nat
  solverAttempts : Nat
  sols : List (GraspSolution P)
deriving DecidableEq

/-- The IK stage entry point.  Fails immediately on an empty candidate
list and on a mis-configured end effector (zero or more than one
attached), leaving the caller's output vector and the solver cache
untouched.  Otherwise it clears the output vector, runs one non-verbose
helper pass and, when that pass fails or yields no solutions, exactly
one more verbose pass, returning the last pass's result. -/
def filterGrasps {P : Type} (env : StageAEnv P)
    (possibleGrasps : List (GraspMsg P)) (filterPregrasp : Bool)
    (cache : Nat) (filteredGrasps : List (GraspSolution P)) :
    FilterResult P :=
  if possibleGrasps.isEmpty then ⟨false, cache, 0, filteredGrasps⟩
  else if env.eeCount = 0 then ⟨false, cache, 0, filteredGrasps⟩
  else if 1 < env.eeCount then ⟨false, cache, 0, filteredGrasps⟩
  else
    -- make sure solution starts empty, then try without verbose mode
    let r1 := filterGraspsHelper env possibleGrasps filterPregrasp false cache []
    if r1.ok = false ∨ r1.sols.length = 0 then
      -- re-run in verbose mode
      let r2 := filterGraspsHelper env possibleGrasps filterPregrasp true
        r1.cache r1.sols
      ⟨r2.ok, r2.cache, r1.solverAttempts + r2.solverAttempts, r2.sols⟩
    else
      ⟨r1.ok, r1.cache, r1.solverAttempts, r1.sols⟩

/-! ## `GraspFilter::filterGraspsInCollisionHelper` (grasp_filter.cpp:432-507) -/

/-- The collision test service: `cloned_scene->isStateColliding(state,
group, verbose)` after `setJointGroupPositions(arm_jmg, joints)`.  It is
a function of the applied joint configuration and the verbose flag (the
scene clone, scratch state and group name are fixed for one run). -/
def CollisionTest : Type := List ℚ → Bool → Bool

/-- One serial pruning pass: walk the solution vector; apply each
solution's grasp IK joint configuration and erase the solution when the
collision test reports a collision, otherwise keep it and advance.  The
commented-out pre-grasp check is dead code; the source function always
returns `true`, so only the surviving vector is modelled. -/
def filterGraspsInCollisionHelper {P : Type} (collide : CollisionTest)
    (verbose : Bool) : List (GraspSolution P) → List (GraspSolution P)
  | [] => []
  | s :: rest =>
    if collide s.graspIkSolution verbose then
      -- remove this grasp, continue with the next
      filterGraspsInCollisionHelper collide verbose rest
    else
      s :: filterGraspsInCollisionHelper collide verbose rest

/-- Modelled from the spec: pruning retains exactly the subsequence of
solutions whose grasp IK configuration is not colliding. -/
def specPrune {P : Type} (collide : CollisionTest) (verbose : Bool)
    (sols : List (GraspSolution P)) : List (GraspSolution P) :=
  sols.filter (fun s => !(collide s.graspIkSolution verbose))

/-! ## `GraspFilter::filterGraspsInCollision` (grasp_filter.cpp:388-430) -/

/-- A record of one pruning pass: the input vector, the verbose flag it
ran with, and the vector it retained. -/
def PruneRun (P : Type) : Type :=
  List (GraspSolution P) × Bool × List (GraspSolution P)

/-- The collision stage.  Fails on an empty input.  Otherwise it copies
the input, runs one pruning pass in place and, when that pass removed
every solution and the stage was not already verbose, runs one more
verbose pass on the saved copy of the original vector — mutating only
the copy, so the caller still sees the emptied vector.  The third
component logs the pruning passes performed. -/
def filterGraspsInCollision {P : Type} (collide : CollisionTest)
    (verbose : Bool) (possibleGrasps : List (GraspSolution P)) :
    Bool × List (GraspSolution P) × List (PruneRun P) :=
  if possibleGrasps.length = 0 then (false, possibleGrasps, [])
  else
    let originalPossibleGrasps := possibleGrasps
    let pruned := filterGraspsInCollisionHelper collide verbose possibleGrasps
    if pruned.length = 0 ∧ verbose = false then
      -- re-run again in debug mode on the copy; its result is dropped
      (true, pruned,
        [(possibleGrasps, verbose, pruned),
         (originalPossibleGrasps, true,
          filterGraspsInCollisionHelper collide true originalPossibleGrasps)])
    else
      (true, pruned, [(possibleGrasps, verbose, pruned)])

/-! ## `GraspFilter::chooseBestGrasp` (grasp_filter.cpp:60-103) -/

/-- A `geometry_msgs::Pose`: position and orientation quaternion, with
real-valued components. -/
structure Pose where
  px : ℝ
  py : ℝ
  pz : ℝ
  qx : ℝ
  qy : ℝ
  qz : ℝ
  qw : ℝ

/-- The orientation proxy computed per solution:
`asin(-2*(x*z - w*y))` of the grasp pose quaternion. -/
noncomputable def yall (p : Pose) : ℝ :=
  Real.arcsin (-2 * (p.qx * p.qz - p.qw * p.qy))

/-- The proxy applied to a solution's grasp pose. -/
noncomputable def yallSol (s : GraspSolution Pose) : ℝ :=
  yall s.grasp.graspPose

/-- The selection loop: state is `(max_quality, chosen)`;
`max_quality` starts at `-1`; a solution overwrites the state exactly
when its proxy strictly exceeds the running maximum.  (The quality-score
branch of the source is under `if (false)` and is dead.) -/
noncomputable def chooseLoop :
    List (GraspSolution Pose) → ℝ × GraspSolution Pose → ℝ × GraspSolution Pose
  | [], st => st
  | g :: rest, st =>
    chooseLoop rest (if yallSol g > st.1 then (yallSol g, g) else st)

/-- `chooseBestGrasp(filtered_grasps, chosen)`: returns `false` on an
empty vector; otherwise runs the selection loop from
`max_quality = -1` with the caller-supplied `chosen` as initial state
and returns `true`. -/
noncomputable def chooseBestGrasp (filteredGrasps : List (GraspSolution Pose))
    (chosen : GraspSolution Pose) : Bool × GraspSolution Pose :=
  if filteredGrasps.isEmpty then (false, chosen)
  else (true, (chooseLoop filteredGrasps (-1, chosen)).2)

/-- Rewrite only the `grasp_quality` field of a solution (used to state
that the selection never consults the stored quality score). -/
def mapQuality (f : ℚ → ℚ) (s : GraspSolution Pose) : GraspSolution Pose :=
  ⟨⟨s.grasp.graspPose, f s.grasp.graspQuality⟩,
    s.graspIkSolution, s.pregraspIkSolution⟩

/-- Rewrite only the `pregrasp_ik_solution_` field of a solution (used
to state that pruning never tests the pre-grasp configuration). -/
def mapPregrasp {P : Type} (f : List ℚ → List ℚ) (s : GraspSolution P) :
    GraspSolution P :=
  ⟨s.grasp, s.graspIkSolution, f s.pregraspIkSolution⟩

/-! ## Shared lemmas about the pruning pass -/

theorem helper_eq_filter {P : Type} (collide : CollisionTest) (verbose : Bool)
    (sols : List (GraspSolution P)) :
    filterGraspsInCollisionHelper collide verbose sols =
      sols.filter (fun s => !(collide s.graspIkSolution verbose)) := by
  induction sols with
  | nil => rfl
  | cons s rest ih =>
    by_cases h : collide s.graspIkSolution verbose = true
    · simp [filterGraspsInCollisionHelper, h, ih, List.filter_cons]
    · simp only [Bool.not_eq_true] at h
      simp [filterGraspsInCollisionHelper, h, ih, List.filter_cons]

/-- C2: Stage B pruning (`filterGraspsInCollisionHelper`) transforms the
solution list into exactly the subsequence of input solutions whose
grasp IK joint configuration is not colliding, preserving relative
order; a solution is removed exactly when the collision test reports a
collision; the output is a subsequence of the input (so never longer);
and the pre-grasp joint configuration is never tested — rewriting the
pre-grasp fields commutes with pruning. -/
theorem filterGraspsInCollisionHelper_correct {P : Type}
    (collide : CollisionTest) (verbose : Bool)
    (sols : List (GraspSolution P)) :
    filterGraspsInCollisionHelper collide verbose sols =
        specPrune collide verbose sols ∧
      (filterGraspsInCollisionHelper collide verbose sols).Sublist sols ∧
      (filterGraspsInCollisionHelper collide verbose sols).length ≤
        sols.length ∧
      ∀ f : List ℚ → List ℚ,
        filterGraspsInCollisionHelper collide verbose
            (sols.map (mapPregrasp f)) =
          (filterGraspsInCollisionHelper collide verbose sols).map
            (mapPregrasp f) := by
  refine ⟨helper_eq_filter collide verbose sols, ?_, ?_, ?_⟩
  · rw [helper_eq_filter]; exact List.filter_sublist sols
  · rw [helper_eq_filter]; exact List.length_filter_le _ sols
  · intro f
    rw [helper_eq_filter, helper_eq_filter, List.filter_map]
    rfl

/-- A concrete sample solution used by witnesses. -/
def sampleSolution : GraspSolution Unit := ⟨⟨(), 0⟩, [1], [2]⟩

/-- A second concrete sample solution used by witnesses. -/
def sampleSolution2 : GraspSolution Unit := ⟨⟨(), 1⟩, [3], [4]⟩

/-- A collision test that reports a collision exactly on non-verbose
runs (used by witnesses to exercise the diagnostic re-run). -/
def collideUnlessVerbose : CollisionTest := fun _ verbose => !verbose

/-- C8: Stage B pruning is idempotent — for every solution list on which
no element's grasp IK joint configuration is reported colliding,
re-running `filterGraspsInCollisionHelper` leaves the list identical,
element for element and in order. -/
theorem filterGraspsInCollisionHelper_idempotent {P : Type}
    (collide : CollisionTest) (verbose : Bool)
    (sols : List (GraspSolution P))
    (h : ∀ s ∈ sols, collide s.graspIkSolution verbose = false) :
    filterGraspsInCollisionHelper collide verbose sols = sols := by
  rw [helper_eq_filter]
  apply List.filter_eq_self.mpr
  intro s hs
  simp [h s hs]

/-- Witness for C8 at a concrete collision-free list. -/
theorem filterGraspsInCollisionHelper_idempotent_witness :
    (∀ s ∈ [sampleSolution, sampleSolution2],
        (fun _ _ => false : CollisionTest) s.graspIkSolution true = false) ∧
      filterGraspsInCollisionHelper (fun _ _ => false) true
          [sampleSolution, sampleSolution2] =
        [sampleSolution, sampleSolution2] :=
  ⟨fun _ _ => rfl,
    filterGraspsInCollisionHelper_idempotent (fun _ _ => false) true
      [sampleSolution, sampleSolution2] (fun _ _ => rfl)⟩

/-- C10: the Stage B diagnostic re-run mutates only the private copy —
when the first pruning pass empties the caller's list (and the stage was
not verbose), the caller-visible solution list is still empty after
`filterGraspsInCollision` returns, for every collision test, including
ones whose verbose re-run would retain solutions. -/
theorem filterGraspsInCollision_private_copy {P : Type}
    (collide : CollisionTest) (sols : List (GraspSolution P))
    (hne : sols ≠ [])
    (h0 : filterGraspsInCollisionHelper collide false sols = []) :
    (filterGraspsInCollision collide false sols).2.1 = [] := by
  have hlen : ¬sols.length = 0 := by simpa [List.length_eq_zero] using hne
  unfold filterGraspsInCollision
  simp [hlen, h0]

/-- Witness for C10: the collision test retains everything on the
verbose re-run, yet the caller still sees the emptied list. -/
theorem filterGraspsInCollision_private_copy_witness :
    ([sampleSolution] ≠ []) ∧
      filterGraspsInCollisionHelper collideUnlessVerbose false
          [sampleSolution] = [] ∧
      filterGraspsInCollisionHelper collideUnlessVerbose true
          [sampleSolution] = [sampleSolution] ∧
      (filterGraspsInCollision collideUnlessVerbose false
          [sampleSolution]).2.1 = [] :=
  ⟨by simp, rfl, rfl,
    filterGraspsInCollision_private_copy collideUnlessVerbose
      [sampleSolution] (by simp) rfl⟩

/-- C6: when the first pruning pass removes every solution of a
non-empty list (and the stage was not verbose), pruning is re-run
exactly once, against the copy of the original un-pruned solution list,
with verbose diagnostics enabled, using the same collision test: the
run log holds exactly the initial run and one verbose run over the
original input. -/
theorem filterGraspsInCollision_rerun {P : Type} (collide : CollisionTest)
    (sols : List (GraspSolution P)) (hne : sols ≠ [])
    (h0 : filterGraspsInCollisionHelper collide false sols = []) :
    filterGraspsInCollision collide false sols =
      (true, [],
        [(sols, false, []),
         (sols, true, filterGraspsInCollisionHelper collide true sols)]) := by
  have hlen : ¬sols.length = 0 := by simpa [List.length_eq_zero] using hne
  unfold filterGraspsInCollision
  simp [hlen, h0]

/-- Witness for C6 at a concrete emptied run. -/
theorem filterGraspsInCollision_rerun_witness :
    ([sampleSolution] ≠ []) ∧
      filterGraspsInCollisionHelper collideUnlessVerbose false
          [sampleSolution] = [] ∧
      filterGraspsInCollision collideUnlessVerbose false [sampleSolution] =
        (true, [],
          [([sampleSolution], false, []),
           ([sampleSolution], true, [sampleSolution])]) :=
  ⟨by simp, rfl, by
    have h := filterGraspsInCollision_rerun collideUnlessVerbose
      [sampleSolution] (by simp) rfl
    simpa using h⟩

/-! ## Lemmas about the selection loop -/

theorem chooseLoop_of_le (l : List (GraspSolution Pose)) (m : ℝ)
    (c : GraspSolution Pose) (h : ∀ s ∈ l, yallSol s ≤ m) :
    chooseLoop l (m, c) = (m, c) := by
  induction l with
  | nil => rfl
  | cons g rest ih =>
    have hg : ¬yallSol g > m := not_lt.mpr (h g (List.mem_cons_self g rest))
    simp only [chooseLoop, hg, if_neg, ite_false]
    exact ih (fun s hs => h s (List.mem_cons_of_mem g hs))

theorem chooseLoop_fst (l : List (GraspSolution Pose)) (st : ℝ × GraspSolution Pose) :
    (chooseLoop l st).1 = l.foldl (fun a g => max a (yallSol g)) st.1 := by
  induction l generalizing st with
  | nil => rfl
  | cons g rest ih =>
    simp only [chooseLoop, List.foldl_cons]
    by_cases h : yallSol g > st.1
    · rw [if_pos h, ih, max_eq_right (le_of_lt h)]
    · rw [if_neg h, ih, max_eq_left (not_lt.mp h)]

theorem foldl_max_init_le (l : List (GraspSolution Pose)) (m : ℝ) :
    m ≤ l.foldl (fun a g => max a (yallSol g)) m := by
  induction l generalizing m with
  | nil => exact le_refl m
  | cons g rest ih =>
    exact le_trans (le_max_left m (yallSol g)) (ih (max m (yallSol g)))

theorem foldl_max_mem_le (l : List (GraspSolution Pose)) (m : ℝ)
    (s : GraspSolution Pose) (hs : s ∈ l) :
    yallSol s ≤ l.foldl (fun a g => max a (yallSol g)) m := by
  induction l generalizing m with
  | nil => cases hs
  | cons g rest ih =>
    rcases List.mem_cons.mp hs with h | h
    · subst h
      exact le_trans (le_max_right m (yallSol s))
        (foldl_max_init_le rest (max m (yallSol s)))
    · exact ih (max m (yallSol g)) h

theorem chooseLoop_chosen (l : List (GraspSolution Pose)) (m : ℝ)
    (c : GraspSolution Pose) :
    chooseLoop l (m, c) = (m, c) ∨
      ((chooseLoop l (m, c)).2 ∈ l ∧
        yallSol (chooseLoop l (m, c)).2 = (chooseLoop l (m, c)).1 ∧
        m < (chooseLoop l (m, c)).1) := by
  induction l generalizing m c with
  | nil => exact Or.inl rfl
  | cons g rest ih =>
    by_cases h : yallSol g > m
    · have hstep : chooseLoop (g :: rest) (m, c) = chooseLoop rest (yallSol g, g) := by
        simp only [chooseLoop, h, if_pos]
      rcases ih (yallSol g) g with heq | ⟨hmem, hy, hlt⟩
      · refine Or.inr ?_
        rw [hstep, heq]
        exact ⟨List.mem_cons_self g rest, rfl, h⟩
      · refine Or.inr ?_
        rw [hstep]
        exact ⟨List.mem_cons_of_mem g hmem, hy, lt_trans h hlt⟩
    · have hstep : chooseLoop (g :: rest) (m, c) = chooseLoop rest (m, c) := by
        simp only [chooseLoop, h, if_neg, ite_false]
      rcases ih m c with heq | ⟨hmem, hy, hlt⟩
      · exact Or.inl (hstep.trans heq)
      · refine Or.inr ?_
        rw [hstep]
        exact ⟨List.mem_cons_of_mem g hmem, hy, hlt⟩

theorem chooseLoop_map_quality (f : ℚ → ℚ) (l : List (GraspSolution Pose))
    (m : ℝ) (c : GraspSolution Pose) :
    chooseLoop (l.map (mapQuality f)) (m, mapQuality f c) =
      ((chooseLoop l (m, c)).1, mapQuality f (chooseLoop l (m, c)).2) := by
  induction l generalizing m c with
  | nil => rfl
  | cons g rest ih =>
    have hy : yallSol (mapQuality f g) = yallSol g := rfl
    simp only [List.map_cons, chooseLoop, hy]
    by_cases h : yallSol g > m
    · rw [if_pos h, if_pos h, ih]
    · rw [if_neg h, if_neg h, ih]

/-! ## C9 -/

/-- C9: for every non-empty solution list in which every solution's
orientation proxy `asin(-2*(qx*qz - qw*qy))` is at most `-1` (the
initial max-quality sentinel, which lies inside asin's range),
`chooseBestGrasp` returns `true` without ever assigning the output
parameter `chosen`, which keeps its caller-supplied value. -/
theorem chooseBestGrasp_sentinel (l : List (GraspSolution Pose))
    (c0 : GraspSolution Pose) (hne : l ≠ [])
    (h : ∀ s ∈ l, yallSol s ≤ -1) :
    chooseBestGrasp l c0 = (true, c0) := by
  unfold chooseBestGrasp
  rw [if_neg (by simpa [List.isEmpty_iff] using hne), chooseLoop_of_le l (-1) c0 h]

/-- A solution whose orientation proxy is `asin(-1) = -π/2 ≤ -1`. -/
noncomputable def lowYawSolution : GraspSolution Pose :=
  ⟨⟨⟨0, 0, 0, 0, -(1/2), 0, 1⟩, 0⟩, [], []⟩

/-- A caller-supplied `chosen` value, distinct from the sample
solutions. -/
noncomputable def callerChosen : GraspSolution Pose :=
  ⟨⟨⟨0, 0, 0, 0, 0, 0, 0⟩, 99⟩, [], []⟩

theorem yallSol_lowYawSolution : yallSol lowYawSolution = -(Real.pi / 2) := by
  have h : (-2 * ((0:ℝ) * 0 - 1 * -(1/2))) = -1 := by norm_num
  simp only [yallSol, yall, lowYawSolution]
  rw [h, Real.arcsin_neg_one]

theorem yallSol_lowYawSolution_le : yallSol lowYawSolution ≤ -1 := by
  rw [yallSol_lowYawSolution]
  have h := Real.pi_gt_three
  linarith

/-- Witness for C9 at a concrete one-element list. -/
theorem chooseBestGrasp_sentinel_witness :
    ([lowYawSolution] ≠ []) ∧
      (∀ s ∈ [lowYawSolution], yallSol s ≤ -1) ∧
      chooseBestGrasp [lowYawSolution] callerChosen = (true, callerChosen) := by
  have hall : ∀ s ∈ [lowYawSolution], yallSol s ≤ -1 := by
    intro s hs
    rw [List.mem_singleton] at hs
    rw [hs]
    exact yallSol_lowYawSolution_le
  exact ⟨by simp, hall,
    chooseBestGrasp_sentinel [lowYawSolution] callerChosen (by simp) hall⟩

/-! ## C7 -/

/-- C7 counterexample: on the one-element list holding the solution with
proxy `asin(-1) = -π/2`, `chooseBestGrasp` returns success but `chosen`
is not the (unique) proxy-maximizing element of the list — it is not an
element of the list at all, so the claim that every non-empty list gets
the maximizing solution selected fails. -/
theorem chooseBestGrasp_counterexample :
    (chooseBestGrasp [lowYawSolution] callerChosen).1 = true ∧
      (chooseBestGrasp [lowYawSolution] callerChosen).2 ∉ [lowYawSolution] := by
  have hlt : ¬yallSol lowYawSolution > (-1 : ℝ) := by
    rw [yallSol_lowYawSolution]
    have h := Real.pi_gt_three
    intro hgt
    linarith
  have hloop : chooseLoop [lowYawSolution] (-1, callerChosen) = (-1, callerChosen) := by
    simp only [chooseLoop, hlt, if_neg, ite_false]
  have hrun : chooseBestGrasp [lowYawSolution] callerChosen = (true, callerChosen) := by
    unfold chooseBestGrasp
    rw [if_neg (by simp), hloop]
  refine ⟨by rw [hrun], ?_⟩
  rw [hrun]
  intro hmem
  rw [List.mem_singleton] at hmem
  have hq : (99 : ℚ) = 0 := congrArg (fun s => s.grasp.graspQuality) hmem
  norm_num at hq

/-- C7 as amended: `chooseBestGrasp` returns failure iff the list is
empty; the stored `grasp_quality` field is never consulted (rewriting
every quality field commutes with selection); and whenever some
solution's proxy exceeds the `-1` sentinel, `chosen` is set to a
proxy-maximizing element of the list.  (When every proxy is at most
`-1`, `chosen` keeps its caller-supplied value — the situation of the
counterexample.) -/
theorem chooseBestGrasp_selection (l : List (GraspSolution Pose))
    (c0 : GraspSolution Pose) :
    ((chooseBestGrasp l c0).1 = false ↔ l = []) ∧
      ((∃ s ∈ l, -1 < yallSol s) →
        (chooseBestGrasp l c0).2 ∈ l ∧
          ∀ s ∈ l, yallSol s ≤ yallSol (chooseBestGrasp l c0).2) ∧
      (∀ f : ℚ → ℚ,
        chooseBestGrasp (l.map (mapQuality f)) (mapQuality f c0) =
          ((chooseBestGrasp l c0).1,
            mapQuality f (chooseBestGrasp l c0).2)) := by
  refine ⟨?_, ?_, ?_⟩
  · unfold chooseBestGrasp
    by_cases h : l.isEmpty
    · simp [h, List.isEmpty_iff.mp h]
    · have hne : l ≠ [] := fun hh => by
        rw [hh] at h
        exact h rfl
      simp [h, hne]
  · rintro ⟨s, hsmem, hslt⟩
    have hne : ¬l.isEmpty := by
      cases l with
      | nil => cases hsmem
      | cons a as => simp
    have hrun : chooseBestGrasp l c0 = (true, (chooseLoop l (-1, c0)).2) := by
      unfold chooseBestGrasp
      rw [if_neg hne]
    have hfst : (chooseLoop l (-1, c0)).1 =
        l.foldl (fun a g => max a (yallSol g)) (-1) := chooseLoop_fst l (-1, c0)
    have hbig : (-1 : ℝ) < (chooseLoop l (-1, c0)).1 := by
      rw [hfst]
      exact lt_of_lt_of_le hslt (foldl_max_mem_le l (-1) s hsmem)
    rcases chooseLoop_chosen l (-1) c0 with heq | ⟨hmem, hy, _⟩
    · rw [heq] at hbig
      exact absurd hbig (lt_irrefl _)
    · refine ⟨by rw [hrun]; exact hmem, ?_⟩
      intro t ht
      rw [hrun]
      show yallSol t ≤ yallSol (chooseLoop l (-1, c0)).2
      rw [hy, hfst]
      exact foldl_max_mem_le l (-1) t ht
  · intro f
    unfold chooseBestGrasp
    by_cases h : l.isEmpty
    · have : l = [] := List.isEmpty_iff.mp h
      subst this
      simp [mapQuality]
    · have hmap : ¬(l.map (mapQuality f)).isEmpty := by
        cases l with
        | nil => simp at h
        | cons a as => simp
      rw [if_neg h, if_neg hmap, chooseLoop_map_quality]

/-- Witness for C7's amended theorem: on a one-element list whose proxy
`asin 0 = 0` exceeds the sentinel, the maximizing element is chosen. -/
theorem chooseBestGrasp_selection_witness :
    (∃ s ∈ [callerChosen], -1 < yallSol s) ∧
      (chooseBestGrasp [callerChosen] lowYawSolution).2 ∈ [callerChosen] := by
  have hy : yallSol callerChosen = 0 := by
    have h : (-2 * ((0:ℝ) * 0 - 0 * 0)) = 0 := by norm_num
    simp only [yallSol, yall, callerChosen]
    rw [h, Real.arcsin_zero]
  have hex : ∃ s ∈ [callerChosen], -1 < yallSol s :=
    ⟨callerChosen, List.mem_singleton.mpr rfl, by rw [hy]; norm_num⟩
  exact ⟨hex,
    ((chooseBestGrasp_selection [callerChosen] lowYawSolution).2.1 hex).1⟩

/-! ## C1 -/

/-- C1: in a worker's pass over its partition, a candidate is accepted
as a `GraspSolution` (appended to the shared result vector) exactly when
the grasp-pose IK call returns `SUCCESS` and, when pre-grasp filtering
is enabled, the pre-grasp-pose IK call also returns `SUCCESS`; every
other outcome merely skips that candidate, the thread never aborting:
the thread's output coincides with the spec-side accept-filter
`specAccepted` along the same warm-start seed evolution. -/
theorem filterGraspThread_accept_iff {P : Type} (env : StageAEnv P)
    (filterPregrasp : Bool) (seed : List ℚ) (grasps : List (GraspMsg P)) :
    filterGraspThread env filterPregrasp seed grasps =
      specAccepted env filterPregrasp seed grasps := by
  induction grasps generalizing seed with
  | nil => rfl
  | cons g rest ih =>
    by_cases h1 : (env.solve (env.linkTransform g.graspPose) seed).1 = SUCCESS
    · cases filterPregrasp with
      | true =>
        by_cases h2 : (env.solve (env.linkTransform (env.preGraspPose g))
            (env.solve (env.linkTransform g.graspPose) seed).2).1 = SUCCESS
        · have hacc : specAccept env true seed g := ⟨h1, fun _ => h2⟩
          simp only [filterGraspThread, specAccepted, specSolution, specSeed,
            h1, h2, hacc, if_pos, if_true, ite_true]
          exact congrArg _ (ih _)
        · have hacc : ¬specAccept env true seed g := fun hc => h2 (hc.2 rfl)
          simp only [filterGraspThread, specAccepted, specSeed,
            h1, h2, hacc, if_pos, if_true, ite_true, ite_false, if_neg,
            not_false_eq_true]
          exact ih _
      | false =>
        have hacc : specAccept env false seed g :=
          ⟨h1, fun hff => absurd hff (by simp)⟩
        simp only [filterGraspThread, specAccepted, specSolution, specSeed,
          h1, hacc, if_pos, ite_true, ite_false, Bool.false_eq_true, if_neg,
          not_false_eq_true]
        exact congrArg _ (ih _)
    · have hacc : ¬specAccept env filterPregrasp seed g := fun hc => h1 hc.1
      simp only [filterGraspThread, specAccepted, specSeed, h1, hacc,
        if_neg, not_false_eq_true, ite_false]
      exact ih _

/-! ## Partition lemmas (C4) -/

theorem partEnd_eq_min (s T i : Nat) :
    partEnd s T i = min s ⌈graspsPerThread s T * (i + 1)⌉₊ := by
  rw [partEnd, min_def]

theorem partEnd_mono (s T : Nat) {i j : Nat} (h : i ≤ j) :
    partEnd s T i ≤ partEnd s T j := by
  rw [partEnd_eq_min, partEnd_eq_min]
  refine min_le_min (le_refl s) (Nat.ceil_mono ?_)
  have hq : (0:ℚ) ≤ graspsPerThread s T := by
    unfold graspsPerThread
    positivity
  have hij : ((i:ℚ) + 1) ≤ ((j:ℚ) + 1) := by
    have : (i:ℚ) ≤ j := by exact_mod_cast h
    linarith
  exact mul_le_mul_of_nonneg_left hij hq

theorem partEnd_le (s T i : Nat) : partEnd s T i ≤ s := by
  rw [partEnd_eq_min]
  exact min_le_left s _

theorem partEnd_last (s T : Nat) (hT : 1 ≤ T) :
    partEnd s T (T - 1) = s := by
  have hT0 : (T:ℚ) ≠ 0 := by
    have : 0 < T := hT
    positivity
  have harg : graspsPerThread s T * ((T - 1 : ℕ) + 1) = (s:ℚ) := by
    have hc : ((T - 1 : ℕ) : ℚ) + 1 = (T:ℚ) := by
      have : ((T - 1 : ℕ) : ℚ) = (T:ℚ) - 1 := by
        push_cast [Nat.cast_sub hT]
        ring
      rw [this]
      ring
    rw [hc]
    unfold graspsPerThread
    field_simp
  rw [partEnd_eq_min, harg, Nat.ceil_natCast, min_self]

theorem partStart_le_partEnd (s T i : Nat) :
    partStart s T i ≤ partEnd s T i := by
  cases i with
  | zero => exact Nat.zero_le _
  | succ k =>
    show partEnd s T k ≤ partEnd s T (k + 1)
    exact partEnd_mono s T (Nat.le_succ k)

theorem partEnd_share (s T i : Nat) :
    partEnd s T i - partStart s T i ≤ ⌈graspsPerThread s T⌉₊ := by
  have hq : (0:ℚ) ≤ graspsPerThread s T := by
    unfold graspsPerThread
    positivity
  cases i with
  | zero =>
    have : partEnd s T 0 ≤ ⌈graspsPerThread s T⌉₊ := by
      rw [partEnd_eq_min]
      refine le_trans (min_le_right _ _) (Nat.ceil_mono ?_)
      push_cast
      linarith
    simpa [partStart] using this
  | succ k =>
    show partEnd s T (k + 1) - partEnd s T k ≤ ⌈graspsPerThread s T⌉₊
    have hstep : ⌈graspsPerThread s T * ((k + 1 : ℕ) + 1)⌉₊ ≤
        ⌈graspsPerThread s T * ((k:ℕ) + 1)⌉₊ + ⌈graspsPerThread s T⌉₊ := by
      rw [Nat.ceil_le]
      push_cast
      have h1 : graspsPerThread s T * ((k:ℚ) + 1) ≤
          (⌈graspsPerThread s T * ((k:ℕ) + 1)⌉₊ : ℚ) := by
        have := Nat.le_ceil (graspsPerThread s T * ((k:ℕ) + 1))
        push_cast at this
        linarith
      have h2 : graspsPerThread s T ≤ (⌈graspsPerThread s T⌉₊ : ℚ) :=
        Nat.le_ceil _
      nlinarith
    rw [partEnd_eq_min, partEnd_eq_min]
    omega

/-- C4: for every non-empty candidate list and every worker count
between `1` and the candidate count, the partition loop of
`filterGraspsHelper` (ceiling-division contiguous ranges
`[partStart, partEnd)`) covers every candidate index exactly once —
each index lies in some worker's range, in no two distinct workers'
ranges — and no range is longer than the ceiling share
`⌈candidates / workers⌉`. -/
theorem partition_covers (s T : Nat) (hT : 1 ≤ T) (_hTs : T ≤ s) :
    (∀ j, j < s → ∃ i, i < T ∧ partStart s T i ≤ j ∧ j < partEnd s T i) ∧
      (∀ i₁, i₁ < T → ∀ i₂, i₂ < T → ∀ j,
        partStart s T i₁ ≤ j → j < partEnd s T i₁ →
        partStart s T i₂ ≤ j → j < partEnd s T i₂ → i₁ = i₂) ∧
      (∀ i, i < T → partEnd s T i - partStart s T i ≤
        ⌈graspsPerThread s T⌉₊) := by
  refine ⟨?_, ?_, fun i _ => partEnd_share s T i⟩
  · intro j hj
    have hPex : ∃ i, j < partEnd s T i := by
      refine ⟨T - 1, ?_⟩
      rw [partEnd_last s T hT]
      exact hj
    let i0 := Nat.find hPex
    have hspec : j < partEnd s T i0 := Nat.find_spec hPex
    have hle : i0 ≤ T - 1 := Nat.find_min' hPex (by
      rw [partEnd_last s T hT]
      exact hj)
    refine ⟨i0, by omega, ?_, hspec⟩
    cases hi0 : i0 with
    | zero => simp [partStart]
    | succ k =>
      show partEnd s T k ≤ j
      have hmin : ¬j < partEnd s T k := Nat.find_min hPex (by omega)
      omega
  · have aux : ∀ a b, a < b → b < T → ∀ j,
        j < partEnd s T a → partStart s T b ≤ j → False := by
      intro a b hab _ j hja hbj
      have hb1 : b = (b - 1) + 1 := by omega
      have hstart : partEnd s T (b - 1) = partStart s T b := by
        rw [hb1]
        rfl
      have hmono : partEnd s T a ≤ partEnd s T (b - 1) :=
        partEnd_mono s T (by omega)
      omega
    intro i₁ h₁ i₂ h₂ j hs₁ he₁ hs₂ he₂
    rcases lt_trichotomy i₁ i₂ with h | h | h
    · exact absurd (aux i₁ i₂ h h₂ j he₁ hs₂) not_false
    · exact h
    · exact absurd (aux i₂ i₁ h h₁ j he₂ hs₁) not_false

/-- Witness for C4 at five candidates and two workers. -/
theorem partition_covers_witness :
    1 ≤ 2 ∧ 2 ≤ 5 ∧
      (∀ j, j < 5 → ∃ i, i < 2 ∧ partStart 5 2 i ≤ j ∧ j < partEnd 5 2 i) :=
  ⟨by norm_num, by norm_num,
    (partition_covers 5 2 (by norm_num) (by norm_num)).1⟩

/-! ## C3 and C5 -/

theorem helper_fail_cases {P : Type} (env : StageAEnv P)
    (grasps : List (GraspMsg P)) (fp verbose : Bool) (cache : Nat)
    (sols : List (GraspSolution P))
    (h : (filterGraspsHelper env grasps fp verbose cache sols).ok = false) :
    env.solverAvailable = false ∨
      (env.sameFrame = false ∧ env.linkFound = false) := by
  by_cases h1 : cache ≠ numThreadsFor env grasps.length verbose ∧
      0 < numThreadsFor env grasps.length verbose ∧
      env.solverAvailable = false
  · exact Or.inl h1.2.2
  · by_cases h2 : env.sameFrame = false ∧ env.linkFound = false
    · exact Or.inr h2
    · exfalso
      simp only [filterGraspsHelper] at h
      rw [if_neg h1, if_neg h2] at h
      simp at h

/-- A sample grasp message over the trivial pose type. -/
def sampleGrasp : GraspMsg Unit := ⟨(), 0⟩

/-- An environment whose IK frame differs from the model frame and whose
frame link cannot be resolved, although a solver is available and
exactly one end effector is attached. -/
def envLinkMissing : StageAEnv Unit :=
  ⟨1, 1, 1, true, false, false, id, fun _ => (), fun _ _ => (SUCCESS, [])⟩

/-- C3 counterexample: with a non-empty candidate list, an available
solver and exactly one attached end effector, `filterGrasps` still
returns failure when the solver base frame differs from the model frame
and its link cannot be resolved (grasp_filter.cpp:206-211) — a fourth
failure case the claim does not allow. -/
theorem filterGrasps_link_counterexample :
    (filterGrasps envLinkMissing [sampleGrasp] true 0 []).ok = false ∧
      [sampleGrasp] ≠ [] ∧
      envLinkMissing.solverAvailable = true ∧
      envLinkMissing.eeCount = 1 :=
  ⟨rfl, by simp, rfl, rfl⟩

/-- C3 as amended: `filterGrasps` returns failure only in four cases —
the candidate list is empty, no kinematics solver can be instantiated,
the arm has zero or more than one attached end-effector group, or the
solver base frame differs from the robot model frame and names no
resolvable link — and in the empty-candidate-list case it returns
failure immediately, leaving the output vector and the solver cache
untouched and performing no solver instantiation. -/
theorem filterGrasps_failure_cases {P : Type} (env : StageAEnv P)
    (grasps : List (GraspMsg P)) (fp : Bool) (cache : Nat)
    (f0 : List (GraspSolution P)) :
    ((filterGrasps env grasps fp cache f0).ok = false →
        grasps = [] ∨ env.eeCount ≠ 1 ∨ env.solverAvailable = false ∨
          (env.sameFrame = false ∧ env.linkFound = false)) ∧
      filterGrasps env [] fp cache f0 = ⟨false, cache, 0, f0⟩ := by
  constructor
  · intro h
    by_cases hemp : grasps.isEmpty
    · exact Or.inl (List.isEmpty_iff.mp hemp)
    · by_cases hee : env.eeCount = 1
      · refine Or.inr (Or.inr ?_)
        have hee0 : ¬env.eeCount = 0 := by omega
        have hee1 : ¬1 < env.eeCount := by omega
        unfold filterGrasps at h
        rw [if_neg (by simp [hemp]), if_neg hee0, if_neg hee1] at h
        by_cases hrr : (filterGraspsHelper env grasps fp false cache []).ok =
            false ∨
            (filterGraspsHelper env grasps fp false cache []).sols.length = 0
        · rw [if_pos hrr] at h
          exact helper_fail_cases env grasps fp true _ _ h
        · rw [if_neg hrr] at h
          push_neg at hrr
          exact absurd h hrr.1
      · exact Or.inr (Or.inl hee)
  · rfl

/-- Witness for C3's amended theorem: the immediate empty-list failure
at a concrete environment and cache. -/
theorem filterGrasps_failure_cases_witness :
    filterGrasps envLinkMissing ([] : List (GraspMsg Unit)) true 7 [] =
      ⟨false, 7, 0, []⟩ :=
  (filterGrasps_failure_cases envLinkMissing [] true 7 []).2

/-- C5: when the first (non-verbose) IK pass over a non-empty candidate
list with a well-configured end effector yields zero solutions,
`filterGrasps` re-runs the pass exactly once more, in verbose mode, the
verbose pass forcing the worker count to `1`, and returns that second
pass's result; if the second pass also yields zero solutions no further
retry occurs and the returned solution set is empty. -/
theorem filterGrasps_verbose_retry {P : Type} (env : StageAEnv P)
    (grasps : List (GraspMsg P)) (fp : Bool) (cache : Nat)
    (f0 : List (GraspSolution P)) (hne : grasps ≠ [])
    (hee : env.eeCount = 1)
    (h0 : (filterGraspsHelper env grasps fp false cache []).sols = []) :
    (filterGrasps env grasps fp cache f0 =
        ⟨(filterGraspsHelper env grasps fp true
            (filterGraspsHelper env grasps fp false cache []).cache
            (filterGraspsHelper env grasps fp false cache []).sols).ok,
          (filterGraspsHelper env grasps fp true
            (filterGraspsHelper env grasps fp false cache []).cache
            (filterGraspsHelper env grasps fp false cache []).sols).cache,
          (filterGraspsHelper env grasps fp false cache []).solverAttempts +
            (filterGraspsHelper env grasps fp true
              (filterGraspsHelper env grasps fp false cache []).cache
              (filterGraspsHelper env grasps fp false cache []).sols).solverAttempts,
          (filterGraspsHelper env grasps fp true
            (filterGraspsHelper env grasps fp false cache []).cache
            (filterGraspsHelper env grasps fp false cache []).sols).sols⟩) ∧
      numThreadsFor env grasps.length true = 1 ∧
      ((filterGraspsHelper env grasps fp true
          (filterGraspsHelper env grasps fp false cache []).cache
          (filterGraspsHelper env grasps fp false cache []).sols).sols = [] →
        (filterGrasps env grasps fp cache f0).sols = []) := by
  have hemp : ¬grasps.isEmpty = true := by
    cases grasps with
    | nil => exact absurd rfl hne
    | cons a as => simp
  have hee0 : ¬env.eeCount = 0 := by omega
  have hee1 : ¬1 < env.eeCount := by omega
  have hrr : (filterGraspsHelper env grasps fp false cache []).ok = false ∨
      (filterGraspsHelper env grasps fp false cache []).sols.length = 0 :=
    Or.inr (by rw [h0]; rfl)
  have hmain : filterGrasps env grasps fp cache f0 =
      ⟨(filterGraspsHelper env grasps fp true
          (filterGraspsHelper env grasps fp false cache []).cache
          (filterGraspsHelper env grasps fp false cache []).sols).ok,
        (filterGraspsHelper env grasps fp true
          (filterGraspsHelper env grasps fp false cache []).cache
          (filterGraspsHelper env grasps fp false cache []).sols).cache,
        (filterGraspsHelper env grasps fp false cache []).solverAttempts +
          (filterGraspsHelper env grasps fp true
            (filterGraspsHelper env grasps fp false cache []).cache
            (filterGraspsHelper env grasps fp false cache []).sols).solverAttempts,
        (filterGraspsHelper env grasps fp true
          (filterGraspsHelper env grasps fp false cache []).cache
          (filterGraspsHelper env grasps fp false cache []).sols).sols⟩ := by
    unfold filterGrasps
    rw [if_neg hemp, if_neg hee0, if_neg hee1, if_pos hrr]
  refine ⟨hmain, by simp [numThreadsFor], ?_⟩
  intro h2
  rw [hmain]
  exact h2

/-- An environment whose solver always reports `NO_IK_SOLUTION`. -/
def envNoIK : StageAEnv Unit :=
  ⟨1, 1, 1, true, true, true, id, fun _ => (), fun _ _ => (NO_IK_SOLUTION, [])⟩

theorem partEnd_one_one : partEnd 1 1 0 = 1 := partEnd_last 1 1 (le_refl 1)

theorem envNoIK_first_run_empty :
    (filterGraspsHelper envNoIK [sampleGrasp] true false 1 []).sols = [] := by
  have hthread : ∀ seed, filterGraspThread envNoIK true seed [sampleGrasp] = [] := by
    intro seed
    simp [filterGraspThread, envNoIK, NO_IK_SOLUTION, SUCCESS]
  have hT : numThreadsFor envNoIK
      ([sampleGrasp] : List (GraspMsg Unit)).length false = 1 := rfl
  simp only [filterGraspsHelper, hT, List.length_cons, List.length_nil]
  rw [if_neg (by simp [envNoIK]), if_neg (by simp [envNoIK])]
  simp only [HelperResult.mk.injEq, List.nil_append]
  show (List.range 1).flatMap _ = []
  have hone : List.range 1 = [0] := rfl
  rw [hone]
  simp only [List.flatMap_cons, List.flatMap_nil, List.append_nil]
  rw [show numThreadsFor envNoIK (0 + 1) false = 1 from rfl]
  rw [show partStart (0 + 1) 1 0 = 0 from rfl]
  rw [show partEnd (0 + 1) 1 0 = 1 from partEnd_one_one]
  exact hthread _

/-- Witness for C5 at a concrete always-declining solver. -/
theorem filterGrasps_verbose_retry_witness :
    ([sampleGrasp] ≠ []) ∧ envNoIK.eeCount = 1 ∧
      numThreadsFor envNoIK ([sampleGrasp] : List (GraspMsg Unit)).length
        true = 1 :=
  ⟨by simp, rfl,
    (filterGrasps_verbose_retry envNoIK [sampleGrasp] true 1 [] (by simp)
      rfl envNoIK_first_run_empty).2.1⟩

end MoveitGrasps
